import Mathlib

/-!
Verification of the search ranking engine of the good-chat repository
(src/lib/search/search-service.ts and the all-branch of
src/app/api/search/route.ts), as a shallow embedding.

The external relational store is modelled as explicit lists of chat and
message rows; the drizzle query pipeline (where / orderBy / limit /
offset) is modelled by List.filter, a stable insertion sort on the
corresponding sort keys, List.drop and List.take.  SQL LIKE patterns of
the shape percent-term-percent, term-percent and percent-term are
modelled as substring containment, prefix and suffix tests on the
lower-cased operands; the query text is treated as literal text (no
wildcard metacharacters), which is the only case the specification
exercises.  ILIKE lower-cases both operands; since the service has
already lower-cased the search terms before building the pattern, the
where condition and the first scoring branch are modelled by the same
containment test, exactly as they coincide in SQL.

The fuzzy-search collaborator (lib/fuzzy-search) is imported by the
service but its source is not part of this tree, so every statement
about searchChats is universally quantified over an arbitrary function
of its interface shape: no conclusion below depends on its behaviour.
-/

/-! ## String helpers: LIKE-style tests on lists of characters -/

/-- Lower-casing, the model of both the JavaScript toLowerCase call and
the SQL LOWER function (and of the lower-casing ILIKE performs on its
operands).  It maps the character-level lower-casing over the character
list, which keeps it reducible inside the kernel. -/
def jsToLower (s : String) : String :=
  String.mk (s.data.map Char.toLower)

/-- Whitespace trimming, the model of the JavaScript trim call, again
structural over the character list. -/
def jsTrim (s : String) : String :=
  String.mk (((s.data.dropWhile Char.isWhitespace).reverse.dropWhile
    Char.isWhitespace).reverse)

/-- Containment of the pattern list inside the target list, the model of
a SQL LIKE pattern that is surrounded by percent signs on both sides. -/
def charsContain (s pat : List Char) : Bool :=
  pat.isPrefixOf s ||
    match s with
    | [] => false
    | _ :: s1 => charsContain s1 pat

/-- Substring containment, model of LIKE with the pattern between two
percent wildcards. -/
def strContains (s pat : String) : Bool :=
  charsContain s.data pat.data

/-- Prefix test, model of LIKE with the pattern before one trailing
percent wildcard. -/
def strStartsWith (s pat : String) : Bool :=
  pat.data.isPrefixOf s.data

/-- Suffix test, model of LIKE with the pattern after one leading
percent wildcard. -/
def strEndsWith (s pat : String) : Bool :=
  pat.data.isSuffixOf s.data

/-! ## Data model: store rows, filters, results -/

/-- A row of the chatThreads table, as selected by the service. -/
structure ChatRow where
  id : Nat
  userId : Nat
  title : Option String
  projectId : Option Nat
  createdAt : Int
  updatedAt : Int
deriving DecidableEq, Repr

/-- A row of the messages table, as selected by the service. -/
structure MessageRow where
  id : Nat
  chatId : Nat
  role : String
  content : String
  createdAt : Int
deriving DecidableEq, Repr

/-- The SearchFilters interface of search-service.ts. -/
structure SearchFilters where
  userId : Nat
  projectId : Option Nat
  dateFrom : Option Int
  dateTo : Option Int
deriving DecidableEq, Repr

/-- The metadata object of a SearchResult. -/
structure SearchMetadata where
  chatId : Option Nat
  chatTitle : Option String
  messageRole : Option String
  projectId : Option Nat
deriving DecidableEq, Repr

/-- The SearchResult interface of search-service.ts.  Scores are
rational numbers because the fuzzy merge multiplies a score by 0.8. -/
structure SearchResult where
  id : Nat
  type : String
  title : String
  content : String
  url : String
  score : Rat
  createdAt : Int
  updatedAt : Option Int
  metadata : SearchMetadata
deriving DecidableEq, Repr

/-- The items handed to the fuzzy-search collaborator. -/
structure FuzzyItem where
  id : Nat
  label : String
deriving DecidableEq, Repr

/-- The shape of the imported fuzzySearch function: it receives labelled
candidates and the raw query and returns some list of candidates. -/
def FuzzyFn : Type :=
  List FuzzyItem → String → List FuzzyItem

/-- Recency of a result: updatedAt when present, otherwise createdAt. -/
def SearchResult.recency (r : SearchResult) : Int :=
  r.updatedAt.getD r.createdAt

/-! ## Scoring expressions (the SQL CASE expressions of the service) -/

/-- The CASE expression scoring a chat title in searchChats.  The
containment pattern is tested first, then the prefix and suffix
patterns, with 40 as the fallback band.  A NULL title fails every LIKE
test and falls through to the fallback band. -/
def chatScoreSql (title : Option String) (terms : String) : Rat :=
  match title with
  | some t =>
    if strContains (jsToLower t) terms then 100
    else if strStartsWith (jsToLower t) terms then 80
    else if strEndsWith (jsToLower t) terms then 60
    else 40
  | none => 40

/-- The CASE expression scoring a message body in searchMessages: a
containing body refines into the 90 / 70 / 50 bands, any other body
falls to the 30 band. -/
def messageScoreSql (content : String) (terms : String) : Rat :=
  if strContains (jsToLower content) terms then
    if strStartsWith (jsToLower content) terms then 90
    else if strEndsWith (jsToLower content) terms then 70
    else 50
  else 30

/-! ## Sort relations -/

/-- The two-key descending lexicographic order used by the SQL orderBy
clauses: primary key descending, then secondary key descending. -/
def keyLe (f : α → Rat) (g : α → Int) (a b : α) : Prop :=
  f b < f a ∨ (f a = f b ∧ g b ≤ g a)

instance (f : α → Rat) (g : α → Int) : DecidableRel (keyLe f g) :=
  fun a b => decidable_of_iff (f b < f a ∨ (f a = f b ∧ g b ≤ g a)) Iff.rfl

instance (f : α → Rat) (g : α → Int) : IsTotal α (keyLe f g) where
  total a b := by
    rcases lt_trichotomy (f a) (f b) with h | h | h
    · exact Or.inr (Or.inl h)
    · rcases le_total (g a) (g b) with hg | hg
      · exact Or.inr (Or.inr ⟨h.symm, hg⟩)
      · exact Or.inl (Or.inr ⟨h, hg⟩)
    · exact Or.inl (Or.inl h)

instance (f : α → Rat) (g : α → Int) : IsTrans α (keyLe f g) where
  trans a b c hab hbc := by
    rcases hab with hab | ⟨hab, hab2⟩
    · rcases hbc with hbc | ⟨hbc, _⟩
      · exact Or.inl (hbc.trans hab)
      · exact Or.inl (hbc ▸ hab)
    · rcases hbc with hbc | ⟨hbc, hbc2⟩
      · exact Or.inl (hab ▸ hbc)
      · exact Or.inr ⟨hab.trans hbc, hbc2.trans hab2⟩

/-- The relation realised by the final JavaScript sort callbacks, which
compare scores only (descending). -/
def scoreGe (a b : SearchResult) : Prop :=
  b.score ≤ a.score

instance : DecidableRel scoreGe :=
  fun a b => decidable_of_iff (b.score ≤ a.score) Iff.rfl

instance : IsTotal SearchResult scoreGe where
  total a b := le_total b.score a.score

instance : IsTrans SearchResult scoreGe where
  trans _ _ _ hab hbc := le_trans hbc hab

/-- The descending updatedAt order of the suggestions query. -/
def updatedDesc (a b : ChatRow) : Prop :=
  b.updatedAt ≤ a.updatedAt

instance : DecidableRel updatedDesc :=
  fun a b => decidable_of_iff (b.updatedAt ≤ a.updatedAt) Iff.rfl

/-- The full row order of the searchChats store query: score descending,
then updatedAt descending. -/
def chatOrder (terms : String) : ChatRow → ChatRow → Prop :=
  keyLe (fun c => chatScoreSql c.title terms) (fun c => c.updatedAt)

/-- The full row order of the searchMessages store query: score
descending, then message createdAt descending. -/
def msgOrder (terms : String) : MessageRow × ChatRow → MessageRow × ChatRow → Prop :=
  keyLe (fun p => messageScoreSql p.1.content terms) (fun p => p.1.createdAt)

/-- The result order asserted by the specification: score descending,
ties broken by recency descending. -/
def resOrder : SearchResult → SearchResult → Prop :=
  keyLe (fun r => r.score) (fun r => r.recency)

instance (terms : String) : DecidableRel (chatOrder terms) :=
  fun a b => inferInstanceAs (Decidable (keyLe (fun c : ChatRow => chatScoreSql c.title terms)
    (fun c : ChatRow => c.updatedAt) a b))

instance (terms : String) : IsTotal ChatRow (chatOrder terms) :=
  inferInstanceAs (IsTotal ChatRow (keyLe (fun c : ChatRow => chatScoreSql c.title terms)
    (fun c : ChatRow => c.updatedAt)))

instance (terms : String) : IsTrans ChatRow (chatOrder terms) :=
  inferInstanceAs (IsTrans ChatRow (keyLe (fun c : ChatRow => chatScoreSql c.title terms)
    (fun c : ChatRow => c.updatedAt)))

instance (terms : String) : DecidableRel (msgOrder terms) :=
  fun a b => inferInstanceAs (Decidable (keyLe (fun p : MessageRow × ChatRow =>
    messageScoreSql p.1.content terms) (fun p : MessageRow × ChatRow => p.1.createdAt) a b))

instance (terms : String) : IsTotal (MessageRow × ChatRow) (msgOrder terms) :=
  inferInstanceAs (IsTotal (MessageRow × ChatRow) (keyLe (fun p : MessageRow × ChatRow =>
    messageScoreSql p.1.content terms) (fun p : MessageRow × ChatRow => p.1.createdAt)))

instance (terms : String) : IsTrans (MessageRow × ChatRow) (msgOrder terms) :=
  inferInstanceAs (IsTrans (MessageRow × ChatRow) (keyLe (fun p : MessageRow × ChatRow =>
    messageScoreSql p.1.content terms) (fun p : MessageRow × ChatRow => p.1.createdAt)))

instance : DecidableRel resOrder :=
  fun a b => inferInstanceAs (Decidable (keyLe (fun r : SearchResult => r.score)
    (fun r : SearchResult => r.recency) a b))

instance : IsTotal SearchResult resOrder :=
  inferInstanceAs (IsTotal SearchResult (keyLe (fun r : SearchResult => r.score)
    (fun r : SearchResult => r.recency)))

instance : IsTrans SearchResult resOrder :=
  inferInstanceAs (IsTrans SearchResult (keyLe (fun r : SearchResult => r.score)
    (fun r : SearchResult => r.recency)))

/-! ## searchChats -/

/-- The where clause of the searchChats store query: owner equality, the
optional projectId and createdAt date-range filters, and the ILIKE
containment of the (already lower-cased) search terms in the title.  A
NULL title fails the ILIKE test. -/
def chatWhere (f : SearchFilters) (terms : String) (c : ChatRow) : Bool :=
  c.userId == f.userId &&
  (match f.projectId with | some p => c.projectId == some p | none => true) &&
  (match f.dateFrom with | some d => decide (d ≤ c.createdAt) | none => true) &&
  (match f.dateTo with | some d => decide (c.createdAt ≤ d) | none => true) &&
  (match c.title with | some t => strContains (jsToLower t) terms | none => false)

/-- The rows kept by the searchChats store query. -/
def chatRows (db : List ChatRow) (f : SearchFilters) (terms : String) : List ChatRow :=
  db.filter (chatWhere f terms)

/-- The searchChats store query after its orderBy clause. -/
def chatSorted (db : List ChatRow) (f : SearchFilters) (terms : String) : List ChatRow :=
  List.insertionSort (chatOrder terms) (chatRows db f terms)

/-- The page kept by the limit and offset clauses of the store query. -/
def chatPage (db : List ChatRow) (f : SearchFilters) (terms : String)
    (limit offset : Nat) : List ChatRow :=
  ((chatSorted db f terms).drop offset).take limit

/-- The or-else-with-empty-string defaulting of JavaScript, where an
absent or empty title is replaced by the fallback text. -/
def titleOr (fallback : String) (t : Option String) : String :=
  match t with
  | some s => if s = "" then fallback else s
  | none => fallback

/-- Conversion of a fetched chat row to the SearchResult shape. -/
def chatToResult (terms : String) (c : ChatRow) : SearchResult :=
  { id := c.id
    type := "chat"
    title := titleOr "Untitled Chat" c.title
    content := titleOr "" c.title
    url := "/chat/" ++ toString c.id
    score := chatScoreSql c.title terms
    createdAt := c.createdAt
    updatedAt := some c.updatedAt
    metadata := { chatId := none, chatTitle := none, messageRole := none,
                  projectId := c.projectId } }

/-- The primary result list of searchChats: the paginated store query
converted to SearchResult records. -/
def chatPrimary (db : List ChatRow) (f : SearchFilters) (terms : String)
    (limit offset : Nat) : List SearchResult :=
  (chatPage db f terms limit offset).map (chatToResult terms)

/-- The fuzzy fill-up block of searchChats: when the primary list is
shorter than the limit, the primary results themselves are turned into
fuzzy candidates, the fuzzy hits whose id is not already present are
kept up to the limit, and each kept hit is mapped back through a lookup
into the primary list before being appended with a 0.8 score factor. -/
def mergeFuzzy (fz : FuzzyFn) (results : List SearchResult) (query : String)
    (limit : Nat) : List SearchResult :=
  if results.length < limit then
    let fuzzySearchItems := results.map (fun r => { id := r.id, label := r.title : FuzzyItem })
    let fuzzyResults := fz fuzzySearchItems query
    let existingIds := results.map (fun r => r.id)
    let additionalResults :=
      (fuzzyResults.filter (fun item => !(existingIds.contains item.id))).take
        (limit - results.length)
    results ++ additionalResults.filterMap (fun fuzzyItem =>
      (results.find? (fun r => r.id == fuzzyItem.id)).map (fun originalResult =>
        { originalResult with score := originalResult.score * (4 / 5 : Rat) }))
  else results

/-- The searchChats function of search-service.ts, parameterised by the
imported fuzzySearch collaborator and by the chatThreads table. -/
def searchChats (fz : FuzzyFn) (db : List ChatRow) (query : String)
    (filters : SearchFilters) (limit offset : Nat) : List SearchResult :=
  let searchTerms := jsToLower (jsTrim query)
  if searchTerms = "" then []
  else
    List.insertionSort scoreGe
      (mergeFuzzy fz (chatPrimary db filters searchTerms limit offset) query limit)

/-! ## searchMessages -/

/-- The inner join of messages with their chat thread. -/
def msgJoined (chats : List ChatRow) (msgs : List MessageRow) :
    List (MessageRow × ChatRow) :=
  msgs.filterMap (fun m => (chats.find? (fun c => c.id == m.chatId)).map (fun c => (m, c)))

/-- The where clause of the searchMessages store query: owner equality
on the joined chat, the optional projectId filter, the date-range
filters on the message createdAt, the ILIKE containment of the search
terms in the message content, and the user-or-assistant role
restriction. -/
def msgWhere (f : SearchFilters) (terms : String) (p : MessageRow × ChatRow) : Bool :=
  p.2.userId == f.userId &&
  (match f.projectId with | some pr => p.2.projectId == some pr | none => true) &&
  (match f.dateFrom with | some d => decide (d ≤ p.1.createdAt) | none => true) &&
  (match f.dateTo with | some d => decide (p.1.createdAt ≤ d) | none => true) &&
  strContains (jsToLower p.1.content) terms &&
  (p.1.role == "user" || p.1.role == "assistant")

/-- The rows kept by the searchMessages store query. -/
def msgRows (chats : List ChatRow) (msgs : List MessageRow) (f : SearchFilters)
    (terms : String) : List (MessageRow × ChatRow) :=
  (msgJoined chats msgs).filter (msgWhere f terms)

/-- The searchMessages store query after its orderBy clause. -/
def msgSorted (chats : List ChatRow) (msgs : List MessageRow) (f : SearchFilters)
    (terms : String) : List (MessageRow × ChatRow) :=
  List.insertionSort (msgOrder terms) (msgRows chats msgs f terms)

/-- The page kept by the limit and offset clauses. -/
def msgPage (chats : List ChatRow) (msgs : List MessageRow) (f : SearchFilters)
    (terms : String) (limit offset : Nat) : List (MessageRow × ChatRow) :=
  ((msgSorted chats msgs f terms).drop offset).take limit

/-- The snippet construction of searchMessages: content longer than 200
characters is cut to its first 200 characters followed by three dots. -/
def truncateContent (s : String) : String :=
  if s.length > 200 then String.mk (s.data.take 200) ++ "..." else s

/-- Conversion of a joined message row to the SearchResult shape. -/
def msgToResult (terms : String) (p : MessageRow × ChatRow) : SearchResult :=
  { id := p.1.id
    type := "message"
    title := "Message in \"" ++ titleOr "Untitled Chat" p.2.title ++ "\""
    content := truncateContent p.1.content
    url := "/chat/" ++ toString p.2.id ++ "?messageId=" ++ toString p.1.id
    score := messageScoreSql p.1.content terms
    createdAt := p.1.createdAt
    updatedAt := none
    metadata := { chatId := some p.2.id
                  chatTitle := match p.2.title with
                               | some s => if s = "" then none else some s
                               | none => none
                  messageRole := some p.1.role
                  projectId := p.2.projectId } }

/-- The searchMessages function of search-service.ts. -/
def searchMessages (chats : List ChatRow) (msgs : List MessageRow) (query : String)
    (filters : SearchFilters) (limit offset : Nat) : List SearchResult :=
  let searchTerms := jsToLower (jsTrim query)
  if searchTerms = "" then []
  else (msgPage chats msgs filters searchTerms limit offset).map (msgToResult searchTerms)

/-! ## Combined search -/

/-- The semanticSearch function of search-service.ts: both sub-searches
are asked for the ceiling of half the limit at offset zero, the lists
are concatenated, sorted by score descending, and sliced. -/
def semanticSearch (fz : FuzzyFn) (chats : List ChatRow) (msgs : List MessageRow)
    (query : String) (filters : SearchFilters) (limit offset : Nat) : List SearchResult :=
  let chatResults := searchChats fz chats query filters ((limit + 1) / 2) 0
  let messageResults := searchMessages chats msgs query filters ((limit + 1) / 2) 0
  ((List.insertionSort scoreGe (chatResults ++ messageResults)).drop offset).take limit

/-- The all-branch of the GET and POST handlers of
src/app/api/search/route.ts: both sub-searches at the ceiling of half
the limit and offset zero, concatenated, sorted by score descending and
cut to the limit. -/
def searchAll (fz : FuzzyFn) (chats : List ChatRow) (msgs : List MessageRow)
    (query : String) (filters : SearchFilters) (limit : Nat) : List SearchResult :=
  let chatResults := searchChats fz chats query filters ((limit + 1) / 2) 0
  let messageResults := searchMessages chats msgs query filters ((limit + 1) / 2) 0
  (List.insertionSort scoreGe (chatResults ++ messageResults)).take limit

/-- The hasMore flag computed by the route handlers. -/
def hasMore (results : List SearchResult) (limit : Nat) : Bool :=
  results.length == limit

/-! ## getSearchSuggestions -/

/-- The general ILIKE containment test, lower-casing both operands, used
by the suggestions query whose pattern is the raw query text. -/
def ilikeContains (t : Option String) (pat : String) : Bool :=
  match t with
  | some s => strContains (jsToLower s) (jsToLower pat)
  | none => false

/-- The rows of the suggestions store query: owner equality and ILIKE
title containment, ordered by updatedAt descending, capped at the
limit. -/
def suggestionRows (db : List ChatRow) (userId : Nat) (query : String)
    (limit : Nat) : List ChatRow :=
  (List.insertionSort updatedDesc
    (db.filter (fun c => c.userId == userId && ilikeContains c.title query))).take limit

/-- The titles of the fetched suggestion rows after the truthiness
filter, which drops NULL titles and empty-string titles. -/
def suggestionTitles (db : List ChatRow) (userId : Nat) (query : String)
    (limit : Nat) : List String :=
  ((suggestionRows db userId query limit).map (fun c => c.title)).filterMap
    (fun t => match t with
              | some s => if s = "" then none else some s
              | none => none)

/-- The JavaScript keep-first-occurrence filter
(arr.indexOf(title) === index), walking the list with its position. -/
def jsDedupAux (orig : List String) : Nat → List String → List String
  | _, [] => []
  | i, x :: xs =>
    if orig.indexOf x == i then x :: jsDedupAux orig (i + 1) xs
    else jsDedupAux orig (i + 1) xs

/-- Deduplication by exact string equality keeping first occurrences,
as performed by the indexOf filter of getSearchSuggestions. -/
def jsDedup (l : List String) : List String :=
  jsDedupAux l 0 l

/-- The getSearchSuggestions function of search-service.ts. -/
def getSearchSuggestions (db : List ChatRow) (userId : Nat) (query : String)
    (limit : Nat) : List String :=
  if query = "" ∨ query.length < 2 then []
  else jsDedup (suggestionTitles db userId query limit)

/-! ## The fuzzy fill-up never contributes -/

/-- A fuzzy candidate surviving the duplicate-id filter has an id absent
from the primary list, so the lookup that would synthesize its appended
result fails and the whole appended list is empty. -/
theorem fuzzyAppend_nil (results : List SearchResult) (extra : List FuzzyItem) (k : Nat) :
    ((extra.filter (fun item => !((results.map (fun r => r.id)).contains item.id))).take
        k).filterMap
      (fun fuzzyItem => (results.find? (fun r => r.id == fuzzyItem.id)).map
        (fun originalResult =>
          { originalResult with score := originalResult.score * (4 / 5 : Rat) })) = [] := by
  rw [List.filterMap_eq_nil_iff]
  intro item hitem
  have hmem := List.mem_of_mem_take hitem
  have hfilter := (List.mem_filter.mp hmem).2
  have hnone : results.find? (fun r => r.id == item.id) = none := by
    rw [List.find?_eq_none]
    intro x hx hbeq
    have hxid : x.id = item.id := by simpa using hbeq
    have hin : item.id ∈ results.map (fun r => r.id) :=
      hxid ▸ List.mem_map_of_mem (fun r => r.id) hx
    simp [hin] at hfilter
  rw [hnone]
  rfl

/-- Whatever the fuzzy collaborator returns, the fill-up block of
searchChats gives back the primary list unchanged. -/
theorem mergeFuzzy_eq_self (fz : FuzzyFn) (results : List SearchResult)
    (query : String) (limit : Nat) :
    mergeFuzzy fz results query limit = results := by
  unfold mergeFuzzy
  split
  · simp only [fuzzyAppend_nil, List.append_nil]
  · rfl

/-! ## searchChats: primary list facts -/

/-- Every row passing the where clause scores 100: the first branch of
the CASE expression tests the same containment pattern that the where
clause already enforced. -/
theorem chatWhere_score {f : SearchFilters} {terms : String} {c : ChatRow}
    (h : chatWhere f terms c = true) : chatScoreSql c.title terms = 100 := by
  unfold chatWhere at h
  simp only [Bool.and_eq_true] at h
  have hlast := h.2
  unfold chatScoreSql
  cases ht : c.title with
  | none => rw [ht] at hlast; simp at hlast
  | some t =>
    rw [ht] at hlast
    simp only [] at hlast
    simp [hlast]

/-- Membership in the primary chat result list comes from a db row that
passed the where clause. -/
theorem mem_chatPrimary {db : List ChatRow} {f : SearchFilters} {terms : String}
    {limit offset : Nat} {r : SearchResult}
    (h : r ∈ chatPrimary db f terms limit offset) :
    ∃ c, c ∈ db ∧ chatWhere f terms c = true ∧ r = chatToResult terms c := by
  obtain ⟨c, hc, rfl⟩ := List.mem_map.mp h
  unfold chatPage at hc
  have hc2 : c ∈ chatSorted db f terms :=
    List.mem_of_mem_drop (List.mem_of_mem_take hc)
  have hc3 : c ∈ chatRows db f terms :=
    (List.perm_insertionSort (chatOrder terms) (chatRows db f terms)).subset hc2
  have hc4 := List.mem_filter.mp hc3
  exact ⟨c, hc4.1, hc4.2, rfl⟩

/-- Every primary chat result carries score 100 and kind chat. -/
theorem chatPrimary_score {db : List ChatRow} {f : SearchFilters} {terms : String}
    {limit offset : Nat} {r : SearchResult}
    (h : r ∈ chatPrimary db f terms limit offset) :
    r.score = 100 ∧ r.type = "chat" := by
  obtain ⟨c, _, hw, rfl⟩ := mem_chatPrimary h
  exact ⟨chatWhere_score hw, rfl⟩

/-- The primary chat list is sorted by score descending with recency
tie-break: the store orderBy produces this order and pagination and
conversion preserve it. -/
theorem chatPrimary_pairwise (db : List ChatRow) (f : SearchFilters) (terms : String)
    (limit offset : Nat) :
    (chatPrimary db f terms limit offset).Pairwise resOrder := by
  have h1 : (chatSorted db f terms).Pairwise (chatOrder terms) :=
    List.sorted_insertionSort (chatOrder terms) (chatRows db f terms)
  have h2 : (chatPage db f terms limit offset).Pairwise (chatOrder terms) :=
    h1.sublist ((List.take_sublist _ _).trans (List.drop_sublist _ _))
  refine List.pairwise_map.mpr (h2.imp ?_)
  intro a b hab
  rcases hab with hab | ⟨hab1, hab2⟩
  · exact Or.inl hab
  · exact Or.inr ⟨hab1, hab2⟩

/-- The result order implies the score-only order of the final sorts. -/
theorem resOrder_scoreGe {a b : SearchResult} (h : resOrder a b) : scoreGe a b := by
  rcases h with h | ⟨h1, _⟩
  · exact le_of_lt h
  · exact le_of_eq h1.symm

/-- searchChats returns exactly its primary list: the fuzzy fill-up adds
nothing and the final sort leaves the already-sorted list unchanged. -/
theorem searchChats_eq (fz : FuzzyFn) (db : List ChatRow) (query : String)
    (filters : SearchFilters) (limit offset : Nat) :
    searchChats fz db query filters limit offset =
      if jsToLower (jsTrim query) = "" then []
      else chatPrimary db filters (jsToLower (jsTrim query)) limit offset := by
  unfold searchChats
  by_cases h : jsToLower (jsTrim query) = ""
  · simp only [if_pos h]
  · simp only [if_neg h, mergeFuzzy_eq_self]
    exact List.Sorted.insertionSort_eq
      ((chatPrimary_pairwise db filters _ limit offset).imp resOrder_scoreGe)

/-- Every result of searchChats has score 100 and kind chat. -/
theorem searchChats_score {fz : FuzzyFn} {db : List ChatRow} {query : String}
    {filters : SearchFilters} {limit offset : Nat} {r : SearchResult}
    (h : r ∈ searchChats fz db query filters limit offset) :
    r.score = 100 ∧ r.type = "chat" := by
  rw [searchChats_eq] at h
  by_cases hq : jsToLower (jsTrim query) = ""
  · rw [if_pos hq] at h
    exact absurd h (List.not_mem_nil r)
  · rw [if_neg hq] at h
    exact chatPrimary_score h

/-- The searchChats output is sorted by score descending with recency
tie-break. -/
theorem searchChats_pairwise (fz : FuzzyFn) (db : List ChatRow) (query : String)
    (filters : SearchFilters) (limit offset : Nat) :
    (searchChats fz db query filters limit offset).Pairwise resOrder := by
  rw [searchChats_eq]
  split
  · exact List.Pairwise.nil
  · exact chatPrimary_pairwise db filters _ limit offset

/-! ## searchMessages facts -/

/-- searchMessages as its pipeline stages. -/
theorem searchMessages_def (chats : List ChatRow) (msgs : List MessageRow)
    (query : String) (filters : SearchFilters) (limit offset : Nat) :
    searchMessages chats msgs query filters limit offset =
      if jsToLower (jsTrim query) = "" then []
      else (msgPage chats msgs filters (jsToLower (jsTrim query)) limit offset).map
        (msgToResult (jsToLower (jsTrim query))) := rfl

/-- Membership in the searchMessages output comes from an actual message
row joined to a chat row, with the where clause satisfied. -/
theorem mem_searchMessages {chats : List ChatRow} {msgs : List MessageRow}
    {query : String} {filters : SearchFilters} {limit offset : Nat} {r : SearchResult}
    (h : r ∈ searchMessages chats msgs query filters limit offset) :
    ∃ p : MessageRow × ChatRow, p.1 ∈ msgs ∧
      msgWhere filters (jsToLower (jsTrim query)) p = true ∧
      r = msgToResult (jsToLower (jsTrim query)) p := by
  rw [searchMessages_def] at h
  split at h
  · exact absurd h (List.not_mem_nil r)
  · obtain ⟨p, hp, rfl⟩ := List.mem_map.mp h
    unfold msgPage at hp
    have hp2 : p ∈ msgSorted chats msgs filters (jsToLower (jsTrim query)) :=
      List.mem_of_mem_drop (List.mem_of_mem_take hp)
    have hp3 : p ∈ msgRows chats msgs filters (jsToLower (jsTrim query)) :=
      (List.perm_insertionSort _ _).subset hp2
    have hp4 := List.mem_filter.mp hp3
    obtain ⟨m, hm, hsome⟩ := List.mem_filterMap.mp hp4.1
    obtain ⟨c, _, hpc⟩ := Option.map_eq_some'.mp hsome
    refine ⟨p, ?_, hp4.2, rfl⟩
    rw [← hpc]
    exact hm

/-- The message score bands never exceed 90. -/
theorem messageScoreSql_le (content terms : String) :
    messageScoreSql content terms ≤ 90 := by
  unfold messageScoreSql
  split_ifs <;> norm_num

/-- Every result of searchMessages has kind message and score at most
90. -/
theorem searchMessages_score {chats : List ChatRow} {msgs : List MessageRow}
    {query : String} {filters : SearchFilters} {limit offset : Nat} {r : SearchResult}
    (h : r ∈ searchMessages chats msgs query filters limit offset) :
    r.score ≤ 90 ∧ r.type = "message" := by
  obtain ⟨p, _, _, rfl⟩ := mem_searchMessages h
  exact ⟨messageScoreSql_le p.1.content _, rfl⟩

/-- The searchMessages output is sorted by score descending with recency
tie-break (recency of a message result being its createdAt). -/
theorem searchMessages_pairwise (chats : List ChatRow) (msgs : List MessageRow)
    (query : String) (filters : SearchFilters) (limit offset : Nat) :
    (searchMessages chats msgs query filters limit offset).Pairwise resOrder := by
  rw [searchMessages_def]
  split
  · exact List.Pairwise.nil
  · have h1 : (msgSorted chats msgs filters (jsToLower (jsTrim query))).Pairwise
        (msgOrder (jsToLower (jsTrim query))) :=
      List.sorted_insertionSort _ _
    have h2 : (msgPage chats msgs filters (jsToLower (jsTrim query)) limit offset).Pairwise
        (msgOrder (jsToLower (jsTrim query))) :=
      h1.sublist ((List.take_sublist _ _).trans (List.drop_sublist _ _))
    refine List.pairwise_map.mpr (h2.imp ?_)
    intro a b hab
    rcases hab with hab | ⟨hab1, hab2⟩
    · exact Or.inl hab
    · exact Or.inr ⟨hab1, hab2⟩

/-! ## Combined search facts -/

/-- Appending message results (scores at most 90) after chat results
(scores exactly 100) keeps the list sorted. -/
theorem append_pairwise {A B : List SearchResult}
    (hA : A.Pairwise resOrder) (hB : B.Pairwise resOrder)
    (hA100 : ∀ r ∈ A, r.score = 100) (hB90 : ∀ r ∈ B, r.score ≤ 90) :
    (A ++ B).Pairwise resOrder := by
  refine List.pairwise_append.mpr ⟨hA, hB, ?_⟩
  intro a ha b hb
  refine Or.inl (lt_of_le_of_lt (hB90 b hb) ?_)
  show (90 : Rat) < a.score
  rw [hA100 a ha]
  norm_num

/-- The concatenation fed to the final sort of the combined search is
already sorted, so that sort leaves it unchanged. -/
theorem combined_sort_eq (fz : FuzzyFn) (chats : List ChatRow) (msgs : List MessageRow)
    (query : String) (filters : SearchFilters) (n : Nat) :
    List.insertionSort scoreGe
        (searchChats fz chats query filters n 0 ++
          searchMessages chats msgs query filters n 0) =
      searchChats fz chats query filters n 0 ++
        searchMessages chats msgs query filters n 0 := by
  refine List.Sorted.insertionSort_eq (List.Pairwise.imp resOrder_scoreGe ?_)
  exact append_pairwise (searchChats_pairwise fz chats query filters n 0)
    (searchMessages_pairwise chats msgs query filters n 0)
    (fun r hr => (searchChats_score hr).1)
    (fun r hr => (searchMessages_score hr).1)

/-- The semanticSearch output is sorted by score descending with recency
tie-break. -/
theorem semanticSearch_pairwise (fz : FuzzyFn) (chats : List ChatRow)
    (msgs : List MessageRow) (query : String) (filters : SearchFilters)
    (limit offset : Nat) :
    (semanticSearch fz chats msgs query filters limit offset).Pairwise resOrder := by
  show (((List.insertionSort scoreGe
      (searchChats fz chats query filters ((limit + 1) / 2) 0 ++
        searchMessages chats msgs query filters ((limit + 1) / 2) 0)).drop offset).take
      limit).Pairwise resOrder
  rw [combined_sort_eq]
  refine List.Pairwise.sublist ((List.take_sublist _ _).trans (List.drop_sublist _ _)) ?_
  exact append_pairwise (searchChats_pairwise fz chats query filters _ 0)
    (searchMessages_pairwise chats msgs query filters _ 0)
    (fun r hr => (searchChats_score hr).1)
    (fun r hr => (searchMessages_score hr).1)

/-- The searchAll (route all-branch) output is sorted likewise. -/
theorem searchAll_pairwise (fz : FuzzyFn) (chats : List ChatRow)
    (msgs : List MessageRow) (query : String) (filters : SearchFilters)
    (limit : Nat) :
    (searchAll fz chats msgs query filters limit).Pairwise resOrder := by
  show ((List.insertionSort scoreGe
      (searchChats fz chats query filters ((limit + 1) / 2) 0 ++
        searchMessages chats msgs query filters ((limit + 1) / 2) 0)).take
      limit).Pairwise resOrder
  rw [combined_sort_eq]
  refine List.Pairwise.sublist (List.take_sublist _ _) ?_
  exact append_pairwise (searchChats_pairwise fz chats query filters _ 0)
    (searchMessages_pairwise chats msgs query filters _ 0)
    (fun r hr => (searchChats_score hr).1)
    (fun r hr => (searchMessages_score hr).1)

/-! ## Deduplication facts -/

/-- Elements produced by the keep-first filter come from the walked
suffix, and their first index in the full list is at least the walked
position. -/
theorem jsDedupAux_mem (l : List String) :
    ∀ (xs : List String) (i : Nat) (x : String),
      x ∈ jsDedupAux l i xs → x ∈ xs ∧ i ≤ l.indexOf x := by
  intro xs
  induction xs with
  | nil => intro i x hx; simp [jsDedupAux] at hx
  | cons y ys ih =>
    intro i x hx
    unfold jsDedupAux at hx
    by_cases hcond : (l.indexOf y == i) = true
    · rw [if_pos hcond] at hx
      rcases List.mem_cons.mp hx with rfl | hx2
      · exact ⟨List.mem_cons_self _ _, le_of_eq (Eq.symm (by simpa using hcond))⟩
      · obtain ⟨h1, h2⟩ := ih (i + 1) x hx2
        exact ⟨List.mem_cons_of_mem _ h1, le_trans (Nat.le_succ i) h2⟩
    · rw [if_neg hcond] at hx
      obtain ⟨h1, h2⟩ := ih (i + 1) x hx
      exact ⟨List.mem_cons_of_mem _ h1, le_trans (Nat.le_succ i) h2⟩

/-- The keep-first filter emits elements in strictly increasing order of
their first index in the full list. -/
theorem jsDedupAux_pairwise (l : List String) :
    ∀ (xs : List String) (i : Nat),
      (jsDedupAux l i xs).Pairwise (fun a b => l.indexOf a < l.indexOf b) := by
  intro xs
  induction xs with
  | nil => intro i; simp [jsDedupAux]
  | cons y ys ih =>
    intro i
    unfold jsDedupAux
    by_cases hcond : (l.indexOf y == i) = true
    · rw [if_pos hcond]
      refine List.Pairwise.cons ?_ (ih (i + 1))
      intro z hz
      have h2 := (jsDedupAux_mem l ys (i + 1) z hz).2
      have h3 : l.indexOf y = i := by simpa using hcond
      omega
    · rw [if_neg hcond]
      exact ih (i + 1)

/-- Completeness of the keep-first filter: walking the suffix of the
full list from the length of the processed prefix, every element that
did not occur in the prefix is kept. -/
theorem jsDedupAux_complete (l : List String) :
    ∀ (xs pre : List String), l = pre ++ xs →
      ∀ x ∈ xs, x ∉ pre → x ∈ jsDedupAux l pre.length xs := by
  intro xs
  induction xs with
  | nil => intro pre _ x hx; simp at hx
  | cons y ys ih =>
    intro pre hl x hx hxpre
    unfold jsDedupAux
    have hll : l = (pre ++ [y]) ++ ys := by rw [hl]; simp
    by_cases hy : y ∈ pre
    · have hidx : l.indexOf y < pre.length := by
        rw [hl, List.indexOf_append_of_mem hy]
        exact List.indexOf_lt_length.mpr hy
      have hcond : (l.indexOf y == pre.length) = false := by
        simp only [beq_eq_false_iff_ne]
        omega
      rw [hcond]
      simp only [Bool.false_eq_true, if_false]
      rcases List.mem_cons.mp hx with rfl | hx2
      · exact absurd hy hxpre
      · have hxpre2 : x ∉ pre ++ [y] := by
          intro hmem
          rcases List.mem_append.mp hmem with h | h
          · exact hxpre h
          · simp only [List.mem_singleton] at h
            subst h
            exact hxpre hy
        have hrec := ih (pre ++ [y]) hll x hx2 hxpre2
        rw [List.length_append] at hrec
        simpa using hrec
    · have hcond : l.indexOf y = pre.length := by
        rw [hl, List.indexOf_append_of_not_mem hy]
        simp
      rw [if_pos (by simpa using hcond)]
      rcases List.mem_cons.mp hx with rfl | hx2
      · exact List.mem_cons_self _ _
      · by_cases hxy : x = y
        · subst hxy
          exact List.mem_cons_self _ _
        · have hxpre2 : x ∉ pre ++ [y] := by
            intro hmem
            rcases List.mem_append.mp hmem with h | h
            · exact hxpre h
            · simp only [List.mem_singleton] at h
              exact hxy h
          have hrec := ih (pre ++ [y]) hll x hx2 hxpre2
          rw [List.length_append] at hrec
          exact List.mem_cons_of_mem _ (by simpa using hrec)

/-- jsDedup emits in strictly increasing order of first occurrence. -/
theorem jsDedup_pairwise (l : List String) :
    (jsDedup l).Pairwise (fun a b => l.indexOf a < l.indexOf b) :=
  jsDedupAux_pairwise l l 0

/-- jsDedup only keeps elements of its input. -/
theorem jsDedup_subset {l : List String} {x : String} (h : x ∈ jsDedup l) : x ∈ l :=
  (jsDedupAux_mem l l 0 x h).1

/-- jsDedup keeps at least one occurrence of every input element. -/
theorem jsDedup_complete {l : List String} {x : String} (h : x ∈ l) : x ∈ jsDedup l :=
  jsDedupAux_complete l l [] rfl x h (by simp)

/-- jsDedup emits no duplicates. -/
theorem jsDedup_nodup (l : List String) : (jsDedup l).Nodup := by
  refine (jsDedup_pairwise l).imp ?_
  intro a b hab heq
  rw [heq] at hab
  exact lt_irrefl _ hab

/-- Titles surviving the truthiness filter are never empty. -/
theorem suggestionTitles_ne_empty {db : List ChatRow} {uid : Nat} {q : String}
    {n : Nat} {s : String} (h : s ∈ suggestionTitles db uid q n) : s ≠ "" := by
  unfold suggestionTitles at h
  obtain ⟨t, _, hsome⟩ := List.mem_filterMap.mp h
  cases t with
  | none => simp at hsome
  | some u =>
    simp only [] at hsome
    by_cases hu : u = ""
    · rw [if_pos hu] at hsome
      simp at hsome
    · rw [if_neg hu] at hsome
      simp only [Option.some.injEq] at hsome
      rw [← hsome]
      exact hu

/-! ## Snippet truncation -/

/-- The snippet rule: long content is cut to its first 200 characters
plus three dots (203 characters in total), short content is kept. -/
theorem truncateContent_spec (s : String) :
    (s.length ≤ 200 → truncateContent s = s) ∧
    (200 < s.length →
      truncateContent s = String.mk (s.data.take 200) ++ "..." ∧
        (truncateContent s).length = 203) := by
  unfold truncateContent
  constructor
  · intro h
    rw [if_neg (by omega)]
  · intro h
    rw [if_pos (by omega)]
    refine ⟨rfl, ?_⟩
    rw [String.length_append]
    have h200 : (String.mk (s.data.take 200)).length = 200 := by
      show (s.data.take 200).length = 200
      rw [List.length_take]
      have h2 : 200 < s.data.length := h
      omega
    rw [h200]
    decide

/-! ## The final merged list and pagination -/

/-- The full, unpaginated primary chat result list: every store match,
sorted, converted. -/
def chatPrimaryAll (db : List ChatRow) (f : SearchFilters) (terms : String) :
    List SearchResult :=
  (chatSorted db f terms).map (chatToResult terms)

/-- The final merged list of searchChats over the full match set: the
store matches plus whatever the fuzzy fill-up block appends to them. -/
def chatMergedFull (fz : FuzzyFn) (db : List ChatRow) (query : String)
    (f : SearchFilters) (terms : String) (limit : Nat) : List SearchResult :=
  mergeFuzzy fz (chatPrimaryAll db f terms) query limit

/-- searchChats output length never exceeds the requested limit. -/
theorem searchChats_length_le (fz : FuzzyFn) (db : List ChatRow) (query : String)
    (filters : SearchFilters) (limit offset : Nat) :
    (searchChats fz db query filters limit offset).length ≤ limit := by
  rw [searchChats_eq]
  split
  · simp
  · unfold chatPrimary chatPage
    rw [List.length_map]
    exact List.length_take_le _ _

/-! ## Concrete fixtures -/

/-- An owner-7 filter with no optional restrictions. -/
def exFilters : SearchFilters :=
  { userId := 7, projectId := none, dateFrom := none, dateTo := none }

/-- A fuzzy collaborator returning no candidate. -/
def fzNone : FuzzyFn := fun _ _ => []

/-- A fuzzy collaborator proposing the typo-titled chat 2 regardless of
its input, the most favourable behaviour for the fuzzy fill-up. -/
def fzProbe : FuzzyFn := fun _ _ => [{ id := 2, label := "alpfa" }]

/-- Chat 1 of owner 7 whose title ends with beta without starting with
it. -/
def betaChat : ChatRow :=
  { id := 1, userId := 7, title := some "my beta", projectId := none,
    createdAt := 10, updatedAt := 20 }

/-- A chat titled alpha. -/
def alphaChat : ChatRow :=
  { id := 1, userId := 7, title := some "alpha", projectId := none,
    createdAt := 10, updatedAt := 20 }

/-- A chat whose title is the typo alpfa. -/
def typoChat : ChatRow :=
  { id := 2, userId := 7, title := some "alpfa", projectId := none,
    createdAt := 11, updatedAt := 21 }

/-- A user message whose content is exactly beta. -/
def betaMsg : MessageRow :=
  { id := 100, chatId := 1, role := "user", content := "beta", createdAt := 50 }

/-- A user message of 250 characters. -/
def longMsg : MessageRow :=
  { id := 101, chatId := 1, role := "user",
    content := String.mk (List.replicate 250 'a'), createdAt := 51 }

/-- Shorthand chat constructor for the combined-search scenario. -/
def mkChat (i : Nat) (t : String) (upd : Int) : ChatRow :=
  { id := i, userId := 7, title := some t, projectId := none,
    createdAt := 0, updatedAt := upd }

/-- Shorthand message constructor for the combined-search scenario. -/
def mkMsg (i : Nat) (c : String) (cr : Int) : MessageRow :=
  { id := i, chatId := 11, role := "user", content := c, createdAt := cr }

/-- Six chats of owner 7 whose titles all contain the letter q, most
recently updated first. -/
def chats6 : List ChatRow :=
  [mkChat 11 "q1" 60, mkChat 12 "q2" 59, mkChat 13 "q3" 58,
   mkChat 14 "q4" 57, mkChat 15 "q5" 56, mkChat 16 "q6" 55]

/-- Six messages of owner 7 whose contents all contain the letter q. -/
def msgs6 : List MessageRow :=
  [mkMsg 21 "q a" 100, mkMsg 22 "q b" 99, mkMsg 23 "a q" 98,
   mkMsg 24 "a q b" 97, mkMsg 25 "b q c" 96, mkMsg 26 "c q d" 95]

/-- Suggestion fixture: two chats sharing one title, one chat with an
empty title, one without a title and one with a different matching
title. -/
def dbSug : List ChatRow :=
  [mkChat 31 "beta x" 10, mkChat 32 "beta x" 9,
   { id := 33, userId := 7, title := some "", projectId := none,
     createdAt := 0, updatedAt := 8 },
   { id := 34, userId := 7, title := none, projectId := none,
     createdAt := 0, updatedAt := 7 },
   mkChat 35 "abetac" 6]

/-! ## Claims -/

/-- Claim C1 (code bug): the specified refined title bands are dead code.
On a chat titled my beta and the query beta (a suffix-only match that the
claim banding sends to 60), searchChats returns the single matching chat
with score 100: the CASE expression tests the containment pattern first,
so every title passing the containment where-clause receives 100 and the
80, 60 and 40 branches are unreachable. -/
theorem chatBands_collapse_at_suffix_input :
    (searchChats fzNone [betaChat] "beta" exFilters 20 0).map (fun r => r.score)
        = [100] ∧
      strEndsWith (jsToLower "my beta") "beta" = true ∧
      strStartsWith (jsToLower "my beta") "beta" = false ∧
      ((100 : Rat) ≠ 60) := by
  decide

/-- Claim C2 counterexample: a message whose content is exactly the
query scores 90, not 110; no 110 band exists in the code. -/
theorem searchMessages_no_equality_band :
    (searchMessages [betaChat] [betaMsg] "beta" exFilters 20 0).map
        (fun r => r.score) = [90] ∧
      betaMsg.content = "beta" ∧ ((90 : Rat) ≠ 110) := by
  decide

/-- Claim C2 (amended): for every matched message, content starting with
the query (exact equality included) scores 90, content only ending with
it scores 70, and any other containment scores 50; there is no 110
equality band. -/
theorem searchMessages_bands {chats : List ChatRow} {msgs : List MessageRow}
    {query : String} {filters : SearchFilters} {limit offset : Nat}
    {r : SearchResult} (h : r ∈ searchMessages chats msgs query filters limit offset) :
    ∃ p : MessageRow × ChatRow, p.1 ∈ msgs ∧ r.id = p.1.id ∧
      strContains (jsToLower p.1.content) (jsToLower (jsTrim query)) = true ∧
      r.score = (if strStartsWith (jsToLower p.1.content) (jsToLower (jsTrim query))
          then (90 : Rat)
        else if strEndsWith (jsToLower p.1.content) (jsToLower (jsTrim query)) then 70
        else 50) := by
  obtain ⟨p, hp, hw, rfl⟩ := mem_searchMessages h
  unfold msgWhere at hw
  simp only [Bool.and_eq_true] at hw
  have hcontain := hw.1.2
  refine ⟨p, hp, rfl, hcontain, ?_⟩
  show messageScoreSql p.1.content (jsToLower (jsTrim query)) = _
  unfold messageScoreSql
  rw [if_pos hcontain]

/-- Witness for claim C2: the theorem applied to the single-message
store with content equal to the query. -/
theorem searchMessages_bands_witness :
    ∃ p : MessageRow × ChatRow, p.1 ∈ [betaMsg] ∧
      (msgToResult "beta" (betaMsg, betaChat)).id = p.1.id ∧
      strContains (jsToLower p.1.content) (jsToLower (jsTrim "beta")) = true ∧
      (msgToResult "beta" (betaMsg, betaChat)).score =
        (if strStartsWith (jsToLower p.1.content) (jsToLower (jsTrim "beta"))
            then (90 : Rat)
          else if strEndsWith (jsToLower p.1.content) (jsToLower (jsTrim "beta")) then 70
          else 50) :=
  @searchMessages_bands [betaChat] [betaMsg] "beta" exFilters 20 0
    (msgToResult "beta" (betaMsg, betaChat)) (by decide)

/-- Claim C3 (code bug): the fuzzy fallback cannot add results.  Owner 7
has chats alpha and the typo alpfa; the query alpha store-matches only
one chat, fewer than the limit of 5, and even a fuzzy collaborator that
explicitly proposes the typo chat 2 adds nothing: the candidate lookup
runs over the already-returned results, so chat 2 is dropped and the
output stays the single store match. -/
theorem searchChats_fuzzy_appends_nothing_concrete :
    (searchChats fzProbe [alphaChat, typoChat] "alpha" exFilters 5 0).map
        (fun r => r.id) = [1] ∧
      (searchChats fzProbe [alphaChat, typoChat] "alpha" exFilters 5 0).length < 5 := by
  decide

/-- Claim C4: for every query, store state and fuzzy collaborator, the
fuzzy-fallback branch of searchChats appends nothing, so the output is
exactly the paginated store-match list, and every returned result has
score exactly 100. -/
theorem searchChats_fuzzy_dead_and_scores_100 (fz : FuzzyFn) (db : List ChatRow)
    (query : String) (filters : SearchFilters) (limit offset : Nat) :
    searchChats fz db query filters limit offset =
        (if jsToLower (jsTrim query) = "" then []
         else chatPrimary db filters (jsToLower (jsTrim query)) limit offset) ∧
      ∀ r ∈ searchChats fz db query filters limit offset, r.score = 100 :=
  ⟨searchChats_eq fz db query filters limit offset,
   fun _ hr => (searchChats_score hr).1⟩

/-- Witness for claim C4: with a fuzzy collaborator proposing a foreign
id, the concrete output equals the primary list and the concrete member
has score 100. -/
theorem searchChats_fuzzy_dead_and_scores_100_witness :
    searchChats fzProbe [betaChat] "beta" exFilters 20 0 =
        (if jsToLower (jsTrim "beta") = "" then []
         else chatPrimary [betaChat] exFilters (jsToLower (jsTrim "beta")) 20 0) ∧
      (chatToResult "beta" betaChat).score = 100 :=
  ⟨(searchChats_fuzzy_dead_and_scores_100 fzProbe [betaChat] "beta" exFilters 20 0).1,
   (searchChats_fuzzy_dead_and_scores_100 fzProbe [betaChat] "beta" exFilters 20 0).2
     (chatToResult "beta" betaChat) (by decide)⟩

/-- Claim C5: the outputs of searchChats, searchMessages and the
combined all search (both the route all-branch and semanticSearch) are
sorted by score descending, and among equal scores the result with the
later updatedAt (falling back to createdAt) comes first. -/
theorem search_outputs_sorted (fz : FuzzyFn) (chats : List ChatRow)
    (msgs : List MessageRow) (query : String) (filters : SearchFilters)
    (limit offset : Nat) :
    (searchChats fz chats query filters limit offset).Pairwise resOrder ∧
      (searchMessages chats msgs query filters limit offset).Pairwise resOrder ∧
      (searchAll fz chats msgs query filters limit).Pairwise resOrder ∧
      (semanticSearch fz chats msgs query filters limit offset).Pairwise resOrder :=
  ⟨searchChats_pairwise fz chats query filters limit offset,
   searchMessages_pairwise chats msgs query filters limit offset,
   searchAll_pairwise fz chats msgs query filters limit,
   semanticSearch_pairwise fz chats msgs query filters limit offset⟩

/-- Claim C6 counterexample: with limit 10, six matching chats (all
scoring 100) and six matching messages, the all search returns a strict
5 and 5 split: the sixth chat, which matches and would score 100, is
absent, while a message scoring only 50 is included — so the output is
not the top ten across both kinds. -/
theorem searchAll_misses_top_scoring_chat :
    ((searchAll fzNone chats6 msgs6 "q" exFilters 10).countP
        (fun r => r.type == "chat") = 5) ∧
      ((searchAll fzNone chats6 msgs6 "q" exFilters 10).countP
        (fun r => r.type == "message") = 5) ∧
      (∀ r ∈ searchAll fzNone chats6 msgs6 "q" exFilters 10, r.id ≠ 16) ∧
      (∃ r ∈ searchAll fzNone chats6 msgs6 "q" exFilters 10, r.score = 50) ∧
      chatWhere exFilters "q" (mkChat 16 "q6" 55) = true ∧
      chatScoreSql (mkChat 16 "q6" 55).title "q" = 100 := by
  decide

/-- Claim C6 (amended): searchAll asks each sub-search for the ceiling
of half the limit at offset zero, concatenates, re-sorts by score and
cuts to the limit; hence each kind contributes at most that ceiling.
In the scenario with limit 10, six chat matches and six message matches
it returns exactly ten results, but as a fixed 5 and 5 split: the
sub-search caps, not the final truncation, decide the composition, and
an excluded chat match may outscore included message matches. -/
theorem searchAll_capped_halves (fz : FuzzyFn) (chats : List ChatRow)
    (msgs : List MessageRow) (query : String) (filters : SearchFilters)
    (limit : Nat) :
    ((searchAll fz chats msgs query filters limit).length ≤ limit ∧
      (searchAll fz chats msgs query filters limit).countP
          (fun r => r.type == "chat") ≤ (limit + 1) / 2 ∧
      (searchAll fz chats msgs query filters limit).countP
          (fun r => r.type == "message") ≤ (limit + 1) / 2) ∧
    ((searchAll fzNone chats6 msgs6 "q" exFilters 10).length = 10 ∧
      (searchAll fzNone chats6 msgs6 "q" exFilters 10).countP
          (fun r => r.type == "chat") = 5 ∧
      (searchAll fzNone chats6 msgs6 "q" exFilters 10).countP
          (fun r => r.type == "message") = 5) := by
  constructor
  · have hperm := List.perm_insertionSort scoreGe
      (searchChats fz chats query filters ((limit + 1) / 2) 0 ++
        searchMessages chats msgs query filters ((limit + 1) / 2) 0)
    refine ⟨?_, ?_, ?_⟩
    · show ((List.insertionSort scoreGe _).take limit).length ≤ limit
      exact List.length_take_le _ _
    · show ((List.insertionSort scoreGe _).take limit).countP _ ≤ (limit + 1) / 2
      calc ((List.insertionSort scoreGe _).take limit).countP (fun r => r.type == "chat")
          ≤ (List.insertionSort scoreGe _).countP (fun r => r.type == "chat") :=
            List.Sublist.countP_le _ (List.take_sublist _ _)
        _ = (searchChats fz chats query filters ((limit + 1) / 2) 0 ++
              searchMessages chats msgs query filters ((limit + 1) / 2) 0).countP
              (fun r => r.type == "chat") := hperm.countP_eq _
        _ = (searchChats fz chats query filters ((limit + 1) / 2) 0).countP
              (fun r => r.type == "chat") +
            (searchMessages chats msgs query filters ((limit + 1) / 2) 0).countP
              (fun r => r.type == "chat") := by rw [List.countP_append]
        _ = (searchChats fz chats query filters ((limit + 1) / 2) 0).countP
              (fun r => r.type == "chat") + 0 := by
              have hz : (searchMessages chats msgs query filters
                  ((limit + 1) / 2) 0).countP (fun r => r.type == "chat") = 0 :=
                List.countP_eq_zero.mpr (fun r hr => by
                  rw [(searchMessages_score hr).2]; decide)
              rw [hz]
        _ ≤ (limit + 1) / 2 := by
              rw [Nat.add_zero]
              exact le_trans (List.countP_le_length _)
                (searchChats_length_le fz chats query filters _ 0)
    · show ((List.insertionSort scoreGe _).take limit).countP _ ≤ (limit + 1) / 2
      calc ((List.insertionSort scoreGe _).take limit).countP (fun r => r.type == "message")
          ≤ (List.insertionSort scoreGe _).countP (fun r => r.type == "message") :=
            List.Sublist.countP_le _ (List.take_sublist _ _)
        _ = (searchChats fz chats query filters ((limit + 1) / 2) 0 ++
              searchMessages chats msgs query filters ((limit + 1) / 2) 0).countP
              (fun r => r.type == "message") := hperm.countP_eq _
        _ = (searchChats fz chats query filters ((limit + 1) / 2) 0).countP
              (fun r => r.type == "message") +
            (searchMessages chats msgs query filters ((limit + 1) / 2) 0).countP
              (fun r => r.type == "message") := by rw [List.countP_append]
        _ = 0 + (searchMessages chats msgs query filters ((limit + 1) / 2) 0).countP
              (fun r => r.type == "message") := by
              have hz : (searchChats fz chats query filters
                  ((limit + 1) / 2) 0).countP (fun r => r.type == "message") = 0 :=
                List.countP_eq_zero.mpr (fun r hr => by
                  rw [(searchChats_score hr).2]; decide)
              rw [hz]
        _ ≤ (limit + 1) / 2 := by
              rw [Nat.zero_add]
              refine le_trans (List.countP_le_length _) ?_
              show (searchMessages chats msgs query filters ((limit + 1) / 2) 0).length
                  ≤ (limit + 1) / 2
              rw [searchMessages_def]
              split
              · simp
              · rw [List.length_map]
                exact List.length_take_le _ _
  · decide

/-- Claim C7: for every query that trims to the empty string, all three
search entry points return the empty list for every store state and
every fuzzy collaborator — so the output is independent of the store —
and for the positive limits the route accepts, the hasMore flag is
false. -/
theorem empty_query_short_circuits (query : String) (hq : jsTrim query = "")
    (fz : FuzzyFn) (chats : List ChatRow) (msgs : List MessageRow)
    (filters : SearchFilters) (limit offset : Nat) :
    searchChats fz chats query filters limit offset = [] ∧
      searchMessages chats msgs query filters limit offset = [] ∧
      searchAll fz chats msgs query filters limit = [] ∧
      semanticSearch fz chats msgs query filters limit offset = [] ∧
      (0 < limit →
        hasMore (searchChats fz chats query filters limit offset) limit = false ∧
          hasMore (searchMessages chats msgs query filters limit offset) limit = false ∧
          hasMore (searchAll fz chats msgs query filters limit) limit = false) := by
  have hterms : jsToLower (jsTrim query) = "" := by rw [hq]; rfl
  have hc : searchChats fz chats query filters limit offset = [] := by
    rw [searchChats_eq, if_pos hterms]
  have hc2 : ∀ n : Nat, searchChats fz chats query filters ((n + 1) / 2) 0 = [] := by
    intro n
    rw [searchChats_eq, if_pos hterms]
  have hm : searchMessages chats msgs query filters limit offset = [] := by
    rw [searchMessages_def, if_pos hterms]
  have hm2 : ∀ n : Nat, searchMessages chats msgs query filters ((n + 1) / 2) 0 = [] := by
    intro n
    rw [searchMessages_def, if_pos hterms]
  have ha : searchAll fz chats msgs query filters limit = [] := by
    show (List.insertionSort scoreGe
      (searchChats fz chats query filters ((limit + 1) / 2) 0 ++
        searchMessages chats msgs query filters ((limit + 1) / 2) 0)).take limit = []
    rw [hc2 limit, hm2 limit]
    simp
  have hs : semanticSearch fz chats msgs query filters limit offset = [] := by
    show ((List.insertionSort scoreGe
      (searchChats fz chats query filters ((limit + 1) / 2) 0 ++
        searchMessages chats msgs query filters ((limit + 1) / 2) 0)).drop
        offset).take limit = []
    rw [hc2 limit, hm2 limit]
    simp
  refine ⟨hc, hm, ha, hs, ?_⟩
  intro hlim
  rw [hc, hm, ha]
  unfold hasMore
  simp only [List.length_nil]
  have : (0 == limit) = false := by
    simp only [beq_eq_false_iff_ne]
    omega
  exact ⟨this, this, this⟩

/-- Witness for claim C7: a whitespace-only query against a non-empty
store. -/
theorem empty_query_short_circuits_witness :
    searchChats fzNone [betaChat] "   " exFilters 20 0 = [] ∧
      searchMessages [betaChat] [betaMsg] "   " exFilters 20 0 = [] ∧
      searchAll fzNone [betaChat] [betaMsg] "   " exFilters 20 = [] ∧
      semanticSearch fzNone [betaChat] [betaMsg] "   " exFilters 20 0 = [] ∧
      (0 < 20 →
        hasMore (searchChats fzNone [betaChat] "   " exFilters 20 0) 20 = false ∧
          hasMore (searchMessages [betaChat] [betaMsg] "   " exFilters 20 0) 20 = false ∧
          hasMore (searchAll fzNone [betaChat] [betaMsg] "   " exFilters 20) 20 = false) :=
  empty_query_short_circuits "   " (by decide) fzNone [betaChat] [betaMsg] exFilters 20 0

/-- Claim C8: the page searchChats returns is exactly the offset-limit
slice of the final merged list — the full sorted store-match list plus
the (provably empty) fuzzy additions of the merge block — so paginating
at the store boundary coincides with paginating the merged list. -/
theorem searchChats_paginates_final_merged (fz : FuzzyFn) (db : List ChatRow)
    (query : String) (filters : SearchFilters) (limit offset : Nat) :
    searchChats fz db query filters limit offset =
      if jsToLower (jsTrim query) = "" then []
      else ((chatMergedFull fz db query filters (jsToLower (jsTrim query))
        limit).drop offset).take limit := by
  rw [searchChats_eq]
  split
  · rfl
  · unfold chatMergedFull
    rw [mergeFuzzy_eq_self]
    unfold chatPrimary chatPage chatPrimaryAll
    rw [List.map_take, List.map_drop]

/-- Claim C9: every message result keeps content of length at most 200
unchanged, and content longer than 200 characters becomes its first 200
characters followed by three dots, 203 characters in total. -/
theorem searchMessages_snippet {chats : List ChatRow} {msgs : List MessageRow}
    {query : String} {filters : SearchFilters} {limit offset : Nat}
    {r : SearchResult} (h : r ∈ searchMessages chats msgs query filters limit offset) :
    ∃ p : MessageRow × ChatRow, p.1 ∈ msgs ∧ r.id = p.1.id ∧
      (p.1.content.length ≤ 200 → r.content = p.1.content) ∧
      (200 < p.1.content.length →
        r.content = String.mk (p.1.content.data.take 200) ++ "..." ∧
          r.content.length = 203) := by
  obtain ⟨p, hp, _, rfl⟩ := mem_searchMessages h
  exact ⟨p, hp, rfl, (truncateContent_spec p.1.content).1,
    (truncateContent_spec p.1.content).2⟩

set_option maxRecDepth 40000 in
/-- Witness for claim C9: a 250-character message is returned with a
203-character snippet. -/
theorem searchMessages_snippet_witness :
    ∃ p : MessageRow × ChatRow, p.1 ∈ [longMsg] ∧
      (msgToResult "a" (longMsg, betaChat)).id = p.1.id ∧
      (p.1.content.length ≤ 200 →
        (msgToResult "a" (longMsg, betaChat)).content = p.1.content) ∧
      (200 < p.1.content.length →
        (msgToResult "a" (longMsg, betaChat)).content =
            String.mk (p.1.content.data.take 200) ++ "..." ∧
          (msgToResult "a" (longMsg, betaChat)).content.length = 203) :=
  @searchMessages_snippet [betaChat] [longMsg] "a" exFilters 20 0
    (msgToResult "a" (longMsg, betaChat)) (by decide)

/-- Claim C10: suggestions contain no duplicates and no empty titles
(titles that are NULL or empty are dropped before deduplication),
deduplication is by exact string equality, every kept suggestion comes
from the fetched title list, every fetched title is represented, and the
emitted order is the order of first occurrence. -/
theorem getSearchSuggestions_clean (db : List ChatRow) (uid : Nat) (q : String)
    (n : Nat) :
    (∀ s ∈ getSearchSuggestions db uid q n, s ≠ "") ∧
      (getSearchSuggestions db uid q n).Nodup ∧
      (getSearchSuggestions db uid q n).Pairwise
        (fun a b => (suggestionTitles db uid q n).indexOf a <
          (suggestionTitles db uid q n).indexOf b) ∧
      (∀ s ∈ getSearchSuggestions db uid q n, s ∈ suggestionTitles db uid q n) ∧
      (¬(q = "" ∨ q.length < 2) →
        ∀ s ∈ suggestionTitles db uid q n, s ∈ getSearchSuggestions db uid q n) := by
  unfold getSearchSuggestions
  by_cases hshort : q = "" ∨ q.length < 2
  · rw [if_pos hshort]
    exact ⟨by simp, List.Pairwise.nil, List.Pairwise.nil, by simp,
      fun hc => absurd hshort hc⟩
  · rw [if_neg hshort]
    refine ⟨?_, jsDedup_nodup _, jsDedup_pairwise _, ?_, ?_⟩
    · intro s hs
      exact suggestionTitles_ne_empty (jsDedup_subset hs)
    · intro s hs
      exact jsDedup_subset hs
    · intro _ s hs
      exact jsDedup_complete hs

/-- Witness for claim C10: a store holding a duplicated title, an empty
title and a missing title. -/
theorem getSearchSuggestions_clean_witness :
    ("beta x" ≠ "") ∧ ("beta x" ∈ getSearchSuggestions dbSug 7 "bet" 5) :=
  ⟨(getSearchSuggestions_clean dbSug 7 "bet" 5).1 "beta x" (by decide),
   (getSearchSuggestions_clean dbSug 7 "bet" 5).2.2.2.2 (by decide) "beta x" (by decide)⟩
